import Mathlib

/-!
Verification of the flock boids simulation kernel.

The simulation core lives in three WGSL compute-shader variants
(`src/client/dist/shader/compute.wgsl` holds a brute-force wrap variant, a
brute-force variant without deltaTime, and a grid-accelerated clamp variant;
`src/unnamed/part_001` holds the momentum/soft-limit grid variant), the grid
population shader (`src/client/dist/shader/grid_populate.wgsl`) and the
TypeScript buffer/parameter logic (`src/client/src/module/buffers.ts`,
`src/unnamed/part_006`).

Shallow embedding choices:
* f32 scalars are embedded as exact rationals (`ℚ`); u32 values as `ℕ` with
  the saturating float-to-u32 conversion made explicit.
* `sqrt` and `pow` have no exact rational realization, so the per-agent
  kernels are parametrized by an oracle `sq : ℚ → ℚ` (and `powF` for `pow`);
  theorems that depend on the value of a square root hypothesize exactly
  `0 ≤ sq q` and `sq q * sq q = q` at the inputs where the shader calls it.
* WGSL `normalize` of the zero vector yields NaN; the embedding makes that
  explicit by letting normalization return `Option`, `none` marking NaN.
* The soft exponential speed limiter of the momentum variant is analyzed over
  `ℝ` with `Real.exp`, since the claim about it concerns exact real
  arithmetic.
-/

namespace Flock

/-- A 2-D vector of exact rationals, standing for WGSL `vec2<f32>`. -/
abbrev Vec := ℚ × ℚ

/-- An agent of the simulation: position and velocity
(`struct Agent` of the compute shaders). -/
structure Agent where
  pos : Vec
  vel : Vec
deriving DecidableEq, Repr

/-- The per-frame uniform parameter block, following the richest shader
variant (`struct SimParams` of `src/unnamed/part_001`); the other shader
variants read subsets of these fields. -/
structure SimParams where
  agentCount : ℕ
  separationRadius : ℚ
  alignmentRadius : ℚ
  cohesionRadius : ℚ
  separationForce : ℚ
  alignmentForce : ℚ
  cohesionForce : ℚ
  maxSpeed : ℚ
  worldSize : Vec
  neighborRadius : ℚ
  deltaTime : ℚ
  gridCellSize : ℚ
  gridWidth : ℕ
  gridHeight : ℕ
  maxAgentsPerCell : ℕ
  edgeAvoidanceDistance : ℚ
  edgeAvoidanceForce : ℚ
  momentumSmoothing : ℚ
  momentumDamping : ℚ
  collisionRadius : ℚ
  collisionForceMultiplier : ℚ
  collisionScaling : ℚ
  maxNeighbors : ℕ
deriving DecidableEq, Repr

/-- WGSL `dot(v, v)`: the squared length of a vector. -/
def lengthSq (v : Vec) : ℚ := v.1 * v.1 + v.2 * v.2

/-- Scale a vector by a rational (WGSL `v * c`). -/
def vscale (c : ℚ) (v : Vec) : Vec := (v.1 * c, v.2 * c)

/-- WGSL `normalize(v) = v / length(v)`. `length` is `sqrt (lengthSq v)`,
supplied by the oracle `sq`. Over exact arithmetic `length v = 0` iff
`lengthSq v = 0`; in that case the division is `0/0` and IEEE semantics give
NaN, embedded as `none`. -/
def normalizeOpt (sq : ℚ → ℚ) (v : Vec) : Option Vec :=
  if lengthSq v = 0 then none
  else some (v.1 / sq (lengthSq v), v.2 / sq (lengthSq v))

/-- WGSL `mix(x, y, a) = x * (1 - a) + y * a` on scalars. -/
def mixQ (x y a : ℚ) : ℚ := x * (1 - a) + y * a

/-- WGSL `mix` on vectors, componentwise. -/
def mixV (x y : Vec) (a : ℚ) : Vec := (mixQ x.1 y.1 a, mixQ x.2 y.2 a)

/-- WGSL `clamp(e, lo, hi) = min(max(e, lo), hi)`. -/
def clampQ (e lo hi : ℚ) : ℚ := min (max e lo) hi

/-- Largest u32 value (the shaders' `0xFFFFFFFF` is also the empty-slot
sentinel). -/
def U32_MAX : ℕ := 4294967295

/-- WGSL `u32(e)` for a float scalar: truncation toward zero with saturation
to `[0, 2^32 - 1]`. Truncation toward zero of a nonnegative rational is its
floor, and every negative rational saturates to 0, so `Int.toNat ∘ floor`
captures both. -/
def u32ofRat (q : ℚ) : ℕ := min (Int.toNat ⌊q⌋) U32_MAX

/-- `worldToGrid` of `grid_populate.wgsl` and `compute.wgsl`: divide by the
cell size, convert to u32, then clamp each coordinate by
`min(_, gridWidth - 1u)` / `min(_, gridHeight - 1u)`. -/
def worldToGrid (cellSize : ℚ) (gridWidth gridHeight : ℕ) (pos : Vec) : ℕ × ℕ :=
  (min (u32ofRat (pos.1 / cellSize)) (gridWidth - 1),
   min (u32ofRat (pos.2 / cellSize)) (gridHeight - 1))

/-- `gridToIndex` of the shaders: row-major linear cell index. -/
def gridToIndex (gridWidth : ℕ) (gp : ℕ × ℕ) : ℕ := gp.2 * gridWidth + gp.1

/-- The spec's `worldToCell` formula, written from the spec's words for the
refinement check of claim C6:
`cx = clamp(floor(position.x / cellSize), 0, gridWidth-1)`, same for `cy`. -/
def specWorldToCell (cellSize : ℚ) (gridWidth gridHeight : ℕ) (pos : Vec) : ℤ × ℤ :=
  (min (max ⌊pos.1 / cellSize⌋ 0) ((gridWidth : ℤ) - 1),
   min (max ⌊pos.2 / cellSize⌋ 0) ((gridHeight : ℤ) - 1))

/-- `MAX_AGENTS_PER_CELL` of `buffers.ts`. -/
def MAX_AGENTS_PER_CELL : ℕ := 128

/-- `GridConfig` of `buffers.ts`. Grid dimensions are JS numbers produced by
`Math.ceil`, embedded as integers. -/
structure GridConfig where
  cellSize : ℚ
  gridWidth : ℤ
  gridHeight : ℤ
  maxAgentsPerCell : ℕ
deriving DecidableEq, Repr

/-- `calculateGridConfig` of `buffers.ts`: the cell size is the neighbor
radius and the grid dimensions are the ceilings of worldSize / cellSize. -/
def calculateGridConfig (worldSize : Vec) (neighborRadius : ℚ) : GridConfig :=
  { cellSize := neighborRadius
    gridWidth := ⌈worldSize.1 / neighborRadius⌉
    gridHeight := ⌈worldSize.2 / neighborRadius⌉
    maxAgentsPerCell := MAX_AGENTS_PER_CELL }

/-- Edge-avoidance force of the grid shader variants (`compute.wgsl` third
variant and `part_001`, identical code): per boundary, an inward component
accumulated when the agent is within `edgeAvoidanceDistance` of it. -/
def edgeForce (P : SimParams) (pos : Vec) : Vec :=
  let eD := P.edgeAvoidanceDistance
  let eF := P.edgeAvoidanceForce
  let x1 : ℚ := if pos.1 < eD then 0 + ((eD - pos.1) / eD) * eF else 0
  let x2 : ℚ :=
    if pos.1 > P.worldSize.1 - eD then x1 - ((eD - (P.worldSize.1 - pos.1)) / eD) * eF else x1
  let y1 : ℚ := if pos.2 < eD then 0 + ((eD - pos.2) / eD) * eF else 0
  let y2 : ℚ :=
    if pos.2 > P.worldSize.2 - eD then y1 - ((eD - (P.worldSize.2 - pos.2)) / eD) * eF else y1
  (x2, y2)

/-- Hard speed limiting of the grid clamp variant (`compute.wgsl` lines
410-414): if `length(velocity) > maxSpeed`, rescale by
`normalize(velocity) * maxSpeed = velocity * (maxSpeed / speed)`. The speed
`length(velocity)` is the oracle value `sq (lengthSq v)`. -/
def limitSpeed (maxSpeed : ℚ) (sq : ℚ → ℚ) (v : Vec) : Vec :=
  let speed := sq (lengthSq v)
  if speed > maxSpeed then (v.1 / speed * maxSpeed, v.2 / speed * maxSpeed) else v

/-- Position integration `position = position + velocity * deltaTime`. -/
def integratePosition (p v : Vec) (dt : ℚ) : Vec := (p.1 + v.1 * dt, p.2 + v.2 * dt)

/-- Wraparound boundary step of the brute-force shader variants: one
world-width correction per axis. -/
def wrapCoord (w x : ℚ) : ℚ := if x < 0 then x + w else if x > w then x - w else x

/-- Wraparound applied to both coordinates. -/
def wrapPosition (worldSize : Vec) (p : Vec) : Vec :=
  (wrapCoord worldSize.1 p.1, wrapCoord worldSize.2 p.2)

/-- Clamp boundary step of the grid shader variants:
`clamp(position, 0, worldSize)` per axis. -/
def clampPosition (worldSize : Vec) (p : Vec) : Vec :=
  (clampQ p.1 0 worldSize.1, clampQ p.2 0 worldSize.2)

/-- Squared distance `dot(diff, diff)` between an agent position and a
candidate neighbor. -/
def distSqTo (pos : Vec) (o : Agent) : ℚ :=
  (pos.1 - o.pos.1) * (pos.1 - o.pos.1) + (pos.2 - o.pos.2) * (pos.2 - o.pos.2)

/-- A candidate neighbor is outside all three interaction radii (the
negation of each accumulation branch's distance test). -/
abbrev outsideAllRadii (P : SimParams) (pos : Vec) (o : Agent) : Prop :=
  ¬ distSqTo pos o < P.separationRadius * P.separationRadius
  ∧ ¬ distSqTo pos o < P.alignmentRadius * P.alignmentRadius
  ∧ ¬ distSqTo pos o < P.cohesionRadius * P.cohesionRadius

/-! #### Neighbor accumulation, grid clamp variant (`compute.wgsl`, third kernel) -/

/-- Accumulator state of the neighbor scan in the grid clamp variant. -/
structure Accum where
  sep : Vec
  align : Vec
  coh : Vec
  sepCnt : ℕ
  alignCnt : ℕ
  cohCnt : ℕ
deriving DecidableEq, Repr

/-- All accumulators start at zero. -/
def accumInit : Accum := ⟨(0, 0), (0, 0), (0, 0), 0, 0, 0⟩

/-- One candidate neighbor of the grid clamp variant's inner loop:
separation accumulates the unit direction away from the neighbor (when
`0 < d² < separationRadius²`), alignment the neighbor velocity, cohesion the
neighbor position. `sq` supplies `sqrt(distSq)`. -/
def accumStep (P : SimParams) (sq : ℚ → ℚ) (pos : Vec) (st : Accum) (other : Agent) : Accum :=
  let diff : Vec := (pos.1 - other.pos.1, pos.2 - other.pos.2)
  let distSq := diff.1 * diff.1 + diff.2 * diff.2
  let st :=
    if distSq < P.separationRadius * P.separationRadius ∧ distSq > 0 then
      let dist := sq distSq
      { st with sep := (st.sep.1 + diff.1 / dist, st.sep.2 + diff.2 / dist)
                sepCnt := st.sepCnt + 1 }
    else st
  let st :=
    if distSq < P.alignmentRadius * P.alignmentRadius then
      { st with align := (st.align.1 + other.vel.1, st.align.2 + other.vel.2)
                alignCnt := st.alignCnt + 1 }
    else st
  if distSq < P.cohesionRadius * P.cohesionRadius then
    { st with coh := (st.coh.1 + other.pos.1, st.coh.2 + other.pos.2)
              cohCnt := st.cohCnt + 1 }
  else st

/-- The whole neighbor scan of the grid clamp variant over the candidate
agents produced by the 3x3 cell walk (in walk order). -/
def accumulate (P : SimParams) (sq : ℚ → ℚ) (pos : Vec) (cands : List Agent) : Accum :=
  cands.foldl (accumStep P sq pos) accumInit

/-- Separation contribution of the grid clamp variant:
`normalize(separation / count) * separationForce` when the count is
positive, zero otherwise. -/
def sepTermGrid (P : SimParams) (sq : ℚ → ℚ) (sep : Vec) (cnt : ℕ) : Option Vec :=
  if cnt > 0 then
    (normalizeOpt sq (sep.1 / (cnt : ℚ), sep.2 / (cnt : ℚ))).map (vscale P.separationForce)
  else some (0, 0)

/-- Alignment contribution (identical code in the grid clamp variant and in
`part_001`): `normalize(alignment / count) * alignmentForce` when the count
is positive, zero otherwise. -/
def alignTerm (P : SimParams) (sq : ℚ → ℚ) (align : Vec) (cnt : ℕ) : Option Vec :=
  if cnt > 0 then
    (normalizeOpt sq (align.1 / (cnt : ℚ), align.2 / (cnt : ℚ))).map (vscale P.alignmentForce)
  else some (0, 0)

/-- Cohesion contribution (identical code in the grid clamp variant and in
`part_001`): `normalize(cohesion / count - position) * cohesionForce` when
the count is positive, zero otherwise. -/
def cohTerm (P : SimParams) (sq : ℚ → ℚ) (pos : Vec) (coh : Vec) (cnt : ℕ) : Option Vec :=
  if cnt > 0 then
    (normalizeOpt sq (coh.1 / (cnt : ℚ) - pos.1, coh.2 / (cnt : ℚ) - pos.2)).map
      (vscale P.cohesionForce)
  else some (0, 0)

/-- Acceleration derived from the accumulators in the grid clamp variant
(`compute.wgsl` lines 351-371); `none` records that some normalization
received a zero-length vector and produced NaN. -/
def deriveAccel (P : SimParams) (sq : ℚ → ℚ) (pos : Vec) (a : Accum) : Option Vec := do
  let s ← sepTermGrid P sq a.sep a.sepCnt
  let al ← alignTerm P sq a.align a.alignCnt
  let c ← cohTerm P sq pos a.coh a.cohCnt
  pure (s.1 + al.1 + c.1, s.2 + al.2 + c.2)

/-- Full acceleration of the grid clamp variant: the three neighbor terms
plus the edge-avoidance force. -/
def accelerationGrid (P : SimParams) (sq : ℚ → ℚ) (pos : Vec) (cands : List Agent) :
    Option Vec :=
  (deriveAccel P sq pos (accumulate P sq pos cands)).map
    (fun a => (a.1 + (edgeForce P pos).1, a.2 + (edgeForce P pos).2))

/-! #### Neighbor accumulation, momentum variant (`src/unnamed/part_001`) -/

/-- Accumulator state of the momentum variant's neighbor scan, with the
`maxNeighbors` early-exit counter and the collision flag. -/
structure AccumM where
  sep : Vec
  align : Vec
  coh : Vec
  sepCnt : ℕ
  alignCnt : ℕ
  cohCnt : ℕ
  processed : ℕ
  isColliding : Bool
deriving DecidableEq, Repr

/-- Initial accumulator of the momentum variant. -/
def accumMInit : AccumM := ⟨(0, 0), (0, 0), (0, 0), 0, 0, 0, 0, false⟩

/-- One candidate neighbor of the momentum variant's loop: once
`maxNeighbors` candidates were processed all further ones are skipped
(the WGSL breaks); separation is scaled by
`max(1, (collisionRadius/dist)^collisionScaling)` (the `pow` oracle is
`powF`), and a distance below 1 sets the collision flag. -/
def accumStepMomentum (P : SimParams) (sq : ℚ → ℚ) (powF : ℚ → ℚ → ℚ) (pos : Vec)
    (st : AccumM) (other : Agent) : AccumM :=
  if st.processed ≥ P.maxNeighbors then st
  else
    let st := { st with processed := st.processed + 1 }
    let diff : Vec := (pos.1 - other.pos.1, pos.2 - other.pos.2)
    let distSq := diff.1 * diff.1 + diff.2 * diff.2
    let st :=
      if distSq < P.separationRadius * P.separationRadius ∧ distSq > 0 then
        let dist := sq distSq
        let forceScale := max 1 (powF (P.collisionRadius / dist) P.collisionScaling)
        let st := { st with
          sep := (st.sep.1 + diff.1 / dist * forceScale, st.sep.2 + diff.2 / dist * forceScale)
          sepCnt := st.sepCnt + 1 }
        if dist < 1 then { st with isColliding := true } else st
      else st
    let st :=
      if distSq < P.alignmentRadius * P.alignmentRadius then
        { st with align := (st.align.1 + other.vel.1, st.align.2 + other.vel.2)
                  alignCnt := st.alignCnt + 1 }
      else st
    if distSq < P.cohesionRadius * P.cohesionRadius then
      { st with coh := (st.coh.1 + other.pos.1, st.coh.2 + other.pos.2)
                cohCnt := st.cohCnt + 1 }
    else st

/-- The momentum variant's neighbor scan over the candidate list. -/
def accumulateMomentum (P : SimParams) (sq : ℚ → ℚ) (powF : ℚ → ℚ → ℚ) (pos : Vec)
    (cands : List Agent) : AccumM :=
  cands.foldl (accumStepMomentum P sq powF pos) accumMInit

/-- Separation contribution of the momentum variant:
`normalize(separation) * separationForce * densityScale` with
`densityScale = 1 + (count - 1) * 0.05`, zero when the count is zero. -/
def sepTermMomentum (P : SimParams) (sq : ℚ → ℚ) (sep : Vec) (cnt : ℕ) : Option Vec :=
  if cnt > 0 then
    (normalizeOpt sq sep).map
      (fun u => vscale (1 + ((cnt : ℚ) - 1) * 0.05) (vscale P.separationForce u))
  else some (0, 0)

/-- Acceleration derived from the accumulators in the momentum variant
(`part_001` lines 161-183). -/
def deriveAccelMomentum (P : SimParams) (sq : ℚ → ℚ) (pos : Vec) (a : AccumM) : Option Vec := do
  let s ← sepTermMomentum P sq a.sep a.sepCnt
  let al ← alignTerm P sq a.align a.alignCnt
  let c ← cohTerm P sq pos a.coh a.cohCnt
  pure (s.1 + al.1 + c.1, s.2 + al.2 + c.2)

/-- Full acceleration of the momentum variant: neighbor terms plus the edge
force. -/
def accelerationMomentum (P : SimParams) (sq : ℚ → ℚ) (powF : ℚ → ℚ → ℚ) (pos : Vec)
    (cands : List Agent) : Option Vec :=
  (deriveAccelMomentum P sq pos (accumulateMomentum P sq powF pos cands)).map
    (fun a => (a.1 + (edgeForce P pos).1, a.2 + (edgeForce P pos).2))

/-- Momentum smoothing and damping of `part_001`:
`mix(previousAcceleration, acceleration, momentumSmoothing)` scaled by
`1 - momentumDamping`. -/
def momentumDamped (P : SimParams) (prevAccel accel : Vec) : Vec :=
  vscale (1 - P.momentumDamping) (mixV prevAccel accel P.momentumSmoothing)

/-! #### Grid population (`grid_populate.wgsl`) -/

/-- The home cell's linear index of a position. -/
def homeCell (P : SimParams) (pos : Vec) : ℕ :=
  gridToIndex P.gridWidth (worldToGrid P.gridCellSize P.gridWidth P.gridHeight pos)

/-- Grid state during population: per-cell counters (`gridIndices`) and the
flat slot array (`gridData`, `none` standing for the `EMPTY_CELL_MARKER`
sentinel). -/
structure PopState where
  counters : ℕ → ℕ
  data : ℕ → Option ℕ

/-- The cleared grid: all counters zero, all slots empty. -/
def emptyPop : PopState := ⟨fun _ => 0, fun _ => none⟩

/-- One agent's insertion in `grid_populate.wgsl`: the atomic add always
bumps the home cell's counter and returns the previous value as the slot;
the agent index is written only when that slot is below
`maxAgentsPerCell`. -/
def popStep (P : SimParams) (st : PopState) (a : ℕ × Vec) : PopState :=
  let cellIdx := homeCell P a.2
  let slotIdx := st.counters cellIdx
  { counters := fun c => if c = cellIdx then st.counters c + 1 else st.counters c
    data :=
      if slotIdx < P.maxAgentsPerCell then
        fun j => if j = cellIdx * P.maxAgentsPerCell + slotIdx then some a.1 else st.data j
      else st.data }

/-- Population of the whole grid. The parallel dispatch performs the atomic
adds in some linearization order; the list fixes one such order of the
(index, position) pairs, and the theorems hold for every order. -/
def populateGrid (P : SimParams) (agents : List (ℕ × Vec)) (st : PopState) : PopState :=
  agents.foldl (popStep P) st

/-- How many of the agents map to the given home cell. -/
def homeCount (P : SimParams) (agents : List (ℕ × Vec)) (c : ℕ) : ℕ :=
  (agents.filter (fun a => homeCell P a.2 == c)).length

/-! #### Parameter updates (`src/unnamed/part_006`) -/

namespace Params

/-- `MAX_AGENTS_PER_CELL` of `part_006` (the earlier buffers module). -/
def MAX_AGENTS_PER_CELL : ℕ := 32

/-- `GridConfig` of `part_006`. -/
structure GridConfig where
  cellSize : ℚ
  gridWidth : ℤ
  gridHeight : ℤ
  maxAgentsPerCell : ℕ
deriving DecidableEq, Repr

/-- `calculateGridConfig` of `part_006`: same formula as the later buffers
module but with its own `MAX_AGENTS_PER_CELL`. -/
def calculateGridConfig (worldSize : Vec) (neighborRadius : ℚ) : GridConfig :=
  { cellSize := neighborRadius
    gridWidth := ⌈worldSize.1 / neighborRadius⌉
    gridHeight := ⌈worldSize.2 / neighborRadius⌉
    maxAgentsPerCell := MAX_AGENTS_PER_CELL }

/-- `SimulationParams` of `part_006`. -/
structure SimulationParams where
  agentCount : ℕ
  separationRadius : ℚ
  alignmentRadius : ℚ
  cohesionRadius : ℚ
  separationForce : ℚ
  alignmentForce : ℚ
  cohesionForce : ℚ
  maxSpeed : ℚ
  worldSize : Vec
  neighborRadius : ℚ
  gridCellSize : ℚ
  gridWidth : ℤ
  gridHeight : ℤ
  maxAgentsPerCell : ℕ
deriving DecidableEq, Repr

/-- The update loop of `updateSimulationParams`: each (id, value) entry is
range-checked and folded into the accumulating record; a value out of range
or an unknown id returns an Error at once. The list holds the map's
entries in iteration order. -/
def applyUpdates (parameterUpdates : List (String × ℚ)) (updates : SimulationParams) :
    Except String SimulationParams :=
  match parameterUpdates with
  | [] => .ok updates
  | (parameterId, value) :: rest =>
    if parameterId = "separationRadius" then
      if value < 1 ∨ value > 200 then .error "Separation radius must be between 1 and 200"
      else applyUpdates rest { updates with separationRadius := value }
    else if parameterId = "alignmentRadius" then
      if value < 1 ∨ value > 200 then .error "Alignment radius must be between 1 and 200"
      else applyUpdates rest { updates with alignmentRadius := value }
    else if parameterId = "cohesionRadius" then
      if value < 1 ∨ value > 200 then .error "Cohesion radius must be between 1 and 200"
      else applyUpdates rest { updates with cohesionRadius := value }
    else if parameterId = "separationForce" then
      if value < 0.1 ∨ value > 10 then .error "Separation force must be between 0.1 and 10"
      else applyUpdates rest { updates with separationForce := value }
    else if parameterId = "alignmentForce" then
      if value < 0.1 ∨ value > 10 then .error "Alignment force must be between 0.1 and 10"
      else applyUpdates rest { updates with alignmentForce := value }
    else if parameterId = "cohesionForce" then
      if value < 0.1 ∨ value > 10 then .error "Cohesion force must be between 0.1 and 10"
      else applyUpdates rest { updates with cohesionForce := value }
    else if parameterId = "maxSpeed" then
      if value < 0.1 ∨ value > 20 then .error "Max speed must be between 0.1 and 20"
      else applyUpdates rest { updates with maxSpeed := value }
    else .error "Unknown parameter"

/-- `updateSimulationParams` of `part_006`: apply the update entries, then
recompute `neighborRadius` as the maximum of the three interaction radii and
recompute the grid configuration when that neighbor radius changed. -/
def updateSimulationParams (currentParams : SimulationParams)
    (parameterUpdates : List (String × ℚ)) : Except String SimulationParams :=
  match applyUpdates parameterUpdates currentParams with
  | .error e => .error e
  | .ok updates =>
    let maxRadius := max (max updates.separationRadius updates.alignmentRadius)
      updates.cohesionRadius
    let updates2 := { updates with neighborRadius := maxRadius }
    if updates2.neighborRadius ≠ currentParams.neighborRadius then
      let gridConfig := calculateGridConfig updates2.worldSize updates2.neighborRadius
      .ok { updates2 with
        gridCellSize := gridConfig.cellSize
        gridWidth := gridConfig.gridWidth
        gridHeight := gridConfig.gridHeight
        maxAgentsPerCell := gridConfig.maxAgentsPerCell }
    else .ok updates2

/-- The documented validity of one update entry (spec section 7(c)): a known
parameter id whose value lies in its documented range. An entry for an
unknown id is never valid. -/
def validEntry (e : String × ℚ) : Prop :=
  if e.1 = "separationRadius" ∨ e.1 = "alignmentRadius" ∨ e.1 = "cohesionRadius" then
    1 ≤ e.2 ∧ e.2 ≤ 200
  else if e.1 = "separationForce" ∨ e.1 = "alignmentForce" ∨ e.1 = "cohesionForce" then
    0.1 ≤ e.2 ∧ e.2 ≤ 10
  else if e.1 = "maxSpeed" then 0.1 ≤ e.2 ∧ e.2 ≤ 20
  else False

instance (e : String × ℚ) : Decidable (validEntry e) := by
  unfold validEntry
  infer_instance

end Params

/-! #### Soft exponential speed limiting (`part_001` lines 228-237), over ℝ -/

/-- The soft limiter's damping factor `exp(-speedRatio + 1)`. -/
noncomputable def softLimitFactor (maxSpeed speed : ℝ) : ℝ :=
  Real.exp (-(speed / maxSpeed) + 1)

/-- The speed after the momentum variant's soft limiting step: when
`speed > 0` and `speed / maxSpeed > 1` the velocity (hence its magnitude) is
scaled by the damping factor, otherwise left unchanged. -/
noncomputable def softLimitSpeed (maxSpeed speed : ℝ) : ℝ :=
  if speed > 0 ∧ speed / maxSpeed > 1 then speed * softLimitFactor maxSpeed speed
  else speed

/-- A concrete parameter record for evaluating the kernels (uniform radii of
5 world units, a 160 by 120 grid of 5-unit cells over an 800 by 600
world). -/
def sampleParams : SimParams :=
  { agentCount := 2
    separationRadius := 5
    alignmentRadius := 5
    cohesionRadius := 5
    separationForce := 1
    alignmentForce := 1
    cohesionForce := 1
    maxSpeed := 2
    worldSize := (800, 600)
    neighborRadius := 5
    deltaTime := 1
    gridCellSize := 5
    gridWidth := 160
    gridHeight := 120
    maxAgentsPerCell := 128
    edgeAvoidanceDistance := 50
    edgeAvoidanceForce := 1
    momentumSmoothing := 0.1
    momentumDamping := 0.05
    collisionRadius := 8
    collisionForceMultiplier := 2
    collisionScaling := 2
    maxNeighbors := 64 }

/-- A parameter record whose alignment radius exceeds the separation radius,
for exercising the alignment normalization on its own. -/
def nanParams : SimParams :=
  { sampleParams with
    separationRadius := 5
    alignmentRadius := 20
    cohesionRadius := 20
    neighborRadius := 20
    gridCellSize := 20
    gridWidth := 40
    gridHeight := 30 }

end Flock

namespace Flock

/-! ### Theorems -/

/-- C7: grid dimensions are `ceil(worldWidth/cellSize)` by
`ceil(worldHeight/cellSize)` with the cell size equal to the neighbor
radius; for cellSize 50 and worldSize (800, 600) this gives a 16 by 12 grid
of 192 cells. -/
theorem calculateGridConfig_spec :
    (∀ (ws : Vec) (r : ℚ),
        (calculateGridConfig ws r).cellSize = r
        ∧ (calculateGridConfig ws r).gridWidth = ⌈ws.1 / r⌉
        ∧ (calculateGridConfig ws r).gridHeight = ⌈ws.2 / r⌉)
    ∧ (calculateGridConfig (800, 600) 50).gridWidth = 16
    ∧ (calculateGridConfig (800, 600) 50).gridHeight = 12
    ∧ (calculateGridConfig (800, 600) 50).gridWidth
        * (calculateGridConfig (800, 600) 50).gridHeight = 192 := by
  refine ⟨fun ws r => ⟨rfl, rfl, rfl⟩, ?_, ?_, ?_⟩ <;>
    norm_num [calculateGridConfig]

/-- C2 (amended): after the boundary step, the clamp variant always has
`position.x ∈ [0, worldWidth]` and `position.y ∈ [0, worldHeight]` (for a
nonnegative world size); the wrap variant re-projects the integrated
position into that range provided each integrated coordinate overshoots by
at most one world length, i.e. lies in `[-worldSize, 2*worldSize]`. -/
theorem boundary_step_containment (ws p v : Vec) (dt : ℚ)
    (hx : 0 ≤ ws.1) (hy : 0 ≤ ws.2) :
    (0 ≤ (clampPosition ws (integratePosition p v dt)).1
      ∧ (clampPosition ws (integratePosition p v dt)).1 ≤ ws.1
      ∧ 0 ≤ (clampPosition ws (integratePosition p v dt)).2
      ∧ (clampPosition ws (integratePosition p v dt)).2 ≤ ws.2)
    ∧ ((-ws.1 ≤ (integratePosition p v dt).1 ∧ (integratePosition p v dt).1 ≤ 2 * ws.1
        ∧ -ws.2 ≤ (integratePosition p v dt).2 ∧ (integratePosition p v dt).2 ≤ 2 * ws.2) →
        0 ≤ (wrapPosition ws (integratePosition p v dt)).1
        ∧ (wrapPosition ws (integratePosition p v dt)).1 ≤ ws.1
        ∧ 0 ≤ (wrapPosition ws (integratePosition p v dt)).2
        ∧ (wrapPosition ws (integratePosition p v dt)).2 ≤ ws.2) := by
  constructor
  · exact ⟨le_min (le_max_right _ _) hx, min_le_right _ _,
      le_min (le_max_right _ _) hy, min_le_right _ _⟩
  · rintro ⟨h1, h2, h3, h4⟩
    unfold wrapPosition wrapCoord
    refine ⟨?_, ?_, ?_, ?_⟩ <;> dsimp only <;> split_ifs <;> linarith

/-- C2 witness: a concrete in-range step through both boundary variants. -/
theorem boundary_step_containment_witness :
    (0 ≤ (clampPosition ((10 : ℚ), (10 : ℚ)) (integratePosition (5, 5) (1, 1) 1)).1
      ∧ (clampPosition ((10 : ℚ), (10 : ℚ)) (integratePosition (5, 5) (1, 1) 1)).1 ≤ 10
      ∧ 0 ≤ (clampPosition ((10 : ℚ), (10 : ℚ)) (integratePosition (5, 5) (1, 1) 1)).2
      ∧ (clampPosition ((10 : ℚ), (10 : ℚ)) (integratePosition (5, 5) (1, 1) 1)).2 ≤ 10)
    ∧ ((-(10 : ℚ) ≤ (integratePosition ((5 : ℚ), (5 : ℚ)) (1, 1) 1).1
        ∧ (integratePosition ((5 : ℚ), (5 : ℚ)) (1, 1) 1).1 ≤ 2 * 10
        ∧ -(10 : ℚ) ≤ (integratePosition ((5 : ℚ), (5 : ℚ)) (1, 1) 1).2
        ∧ (integratePosition ((5 : ℚ), (5 : ℚ)) (1, 1) 1).2 ≤ 2 * 10) →
        0 ≤ (wrapPosition (10, 10) (integratePosition (5, 5) (1, 1) 1)).1
        ∧ (wrapPosition (10, 10) (integratePosition (5, 5) (1, 1) 1)).1 ≤ 10
        ∧ 0 ≤ (wrapPosition (10, 10) (integratePosition (5, 5) (1, 1) 1)).2
        ∧ (wrapPosition (10, 10) (integratePosition (5, 5) (1, 1) 1)).2 ≤ 10) :=
  boundary_step_containment (10, 10) (5, 5) (1, 1) 1 (by norm_num) (by norm_num)

/-- C2 counterexample: the wraparound step adds or subtracts one world
length only, so an integrated coordinate overshooting by more than the
world length is left outside the bounds: position 5, velocity -30,
deltaTime 1 in a width-10 world wraps to -15. -/
theorem wrap_leaves_position_outside :
    ¬ (0 ≤ (wrapPosition ((10 : ℚ), (10 : ℚ)) (integratePosition (5, 5) (-30, 0) 1)).1
        ∧ (wrapPosition ((10 : ℚ), (10 : ℚ)) (integratePosition (5, 5) (-30, 0) 1)).1 ≤ 10) := by
  norm_num [wrapPosition, wrapCoord, integratePosition]

/-- C3: in the hard-clamp variant the speed-limiting step leaves a velocity
of magnitude at most maxSpeed (stated on squared magnitudes, the exact form
of the f32 comparison): a velocity faster than maxSpeed is rescaled to
magnitude exactly maxSpeed, a velocity at most maxSpeed is unchanged. The
oracle hypotheses pin `sq (lengthSq v)` to the exact square root that
WGSL's `length` computes. -/
theorem limitSpeed_bounds (m : ℚ) (sq : ℚ → ℚ) (v : Vec)
    (hm : 0 ≤ m) (hs : 0 ≤ sq (lengthSq v))
    (hsq : sq (lengthSq v) * sq (lengthSq v) = lengthSq v) :
    lengthSq (limitSpeed m sq v) ≤ m * m
    ∧ (m < sq (lengthSq v) → lengthSq (limitSpeed m sq v) = m * m)
    ∧ (sq (lengthSq v) ≤ m → limitSpeed m sq v = v) := by
  by_cases hgt : m < sq (lengthSq v)
  · have hs0 : sq (lengthSq v) ≠ 0 := ne_of_gt (lt_of_le_of_lt hm hgt)
    have hif : limitSpeed m sq v =
        (v.1 / sq (lengthSq v) * m, v.2 / sq (lengthSq v) * m) := by
      unfold limitSpeed
      exact if_pos hgt
    have hval : lengthSq (limitSpeed m sq v) = m * m := by
      rw [hif]
      unfold lengthSq at hsq hs0 ⊢
      dsimp only
      field_simp
      linear_combination (-(m * m)) * hsq
    exact ⟨le_of_eq hval, fun _ => hval, fun hle => absurd hgt (not_lt.mpr hle)⟩
  · have hif : limitSpeed m sq v = v := by
      unfold limitSpeed
      exact if_neg hgt
    have hle : sq (lengthSq v) ≤ m := not_lt.mp hgt
    have hb : lengthSq v ≤ m * m := by
      rw [← hsq]
      exact mul_le_mul hle hle hs hm
    exact ⟨by rw [hif]; exact hb, fun hgt2 => absurd hgt2 hgt, fun _ => hif⟩

/-- C3 witness: velocity (3, 4) of speed 5 against maxSpeed 2. -/
theorem limitSpeed_bounds_witness :
    lengthSq (limitSpeed 2 (fun q => if q = 25 then 5 else 0) ((3 : ℚ), (4 : ℚ))) ≤ 2 * 2
    ∧ ((2 : ℚ) < (fun q => if q = 25 then (5 : ℚ) else 0) (lengthSq ((3 : ℚ), (4 : ℚ))) →
        lengthSq (limitSpeed 2 (fun q => if q = 25 then 5 else 0) ((3 : ℚ), (4 : ℚ))) = 2 * 2)
    ∧ ((fun q => if q = 25 then (5 : ℚ) else 0) (lengthSq ((3 : ℚ), (4 : ℚ))) ≤ 2 →
        limitSpeed 2 (fun q => if q = 25 then 5 else 0) ((3 : ℚ), (4 : ℚ)) = (3, 4)) :=
  limitSpeed_bounds 2 (fun q => if q = 25 then 5 else 0) (3, 4) (by norm_num)
    (by norm_num [lengthSq]) (by norm_num [lengthSq])

/-- C8: each of the four world boundaries closer than
`edgeAvoidanceDistance` contributes an inward force component of magnitude
`(edgeAvoidanceDistance - distanceToEdge)/edgeAvoidanceDistance *
edgeAvoidanceForce` on its axis, and an agent at least
`edgeAvoidanceDistance` from both boundaries of an axis receives zero edge
force on that axis. -/
theorem edge_force_components (P : SimParams) (pos : Vec) :
    ((edgeForce P pos).1 =
      (if pos.1 < P.edgeAvoidanceDistance then
          ((P.edgeAvoidanceDistance - pos.1) / P.edgeAvoidanceDistance) * P.edgeAvoidanceForce
        else 0)
      - (if P.worldSize.1 - P.edgeAvoidanceDistance < pos.1 then
          ((P.edgeAvoidanceDistance - (P.worldSize.1 - pos.1)) / P.edgeAvoidanceDistance)
            * P.edgeAvoidanceForce
        else 0))
    ∧ ((edgeForce P pos).2 =
      (if pos.2 < P.edgeAvoidanceDistance then
          ((P.edgeAvoidanceDistance - pos.2) / P.edgeAvoidanceDistance) * P.edgeAvoidanceForce
        else 0)
      - (if P.worldSize.2 - P.edgeAvoidanceDistance < pos.2 then
          ((P.edgeAvoidanceDistance - (P.worldSize.2 - pos.2)) / P.edgeAvoidanceDistance)
            * P.edgeAvoidanceForce
        else 0))
    ∧ (P.edgeAvoidanceDistance ≤ pos.1 → pos.1 ≤ P.worldSize.1 - P.edgeAvoidanceDistance →
        (edgeForce P pos).1 = 0)
    ∧ (P.edgeAvoidanceDistance ≤ pos.2 → pos.2 ≤ P.worldSize.2 - P.edgeAvoidanceDistance →
        (edgeForce P pos).2 = 0) := by
  refine ⟨?_, ?_, ?_, ?_⟩
  · unfold edgeForce
    dsimp only
    split_ifs <;> ring
  · unfold edgeForce
    dsimp only
    split_ifs <;> ring
  · intro h1 h2
    unfold edgeForce
    dsimp only
    split_ifs <;> linarith
  · intro h1 h2
    unfold edgeForce
    dsimp only
    split_ifs <;> linarith

/-- C6: `worldToGrid` equals the spec's clamped-floor cell formula
`clamp(floor(position/cellSize), 0, gridDim - 1)` on every input, including
positions on or beyond the world boundary, for any grid with at least one
cell per axis whose dimensions fit in u32. -/
theorem worldToGrid_matches_spec (cellSize : ℚ) (gw gh : ℕ) (pos : Vec)
    (hgw1 : 1 ≤ gw) (hgw2 : gw ≤ 2 ^ 32) (hgh1 : 1 ≤ gh) (hgh2 : gh ≤ 2 ^ 32) :
    ((worldToGrid cellSize gw gh pos).1 : ℤ) = (specWorldToCell cellSize gw gh pos).1
    ∧ ((worldToGrid cellSize gw gh pos).2 : ℤ) = (specWorldToCell cellSize gw gh pos).2 := by
  unfold worldToGrid specWorldToCell u32ofRat U32_MAX
  have hfx := Int.toNat_eq_max ⌊pos.1 / cellSize⌋
  have hfy := Int.toNat_eq_max ⌊pos.2 / cellSize⌋
  constructor <;>
  · dsimp only
    push_cast [Nat.cast_min, Nat.cast_sub, hgw1, hgh1]
    omega

/-- A candidate outside all three radii leaves the grid variant's
accumulator untouched. -/
theorem accumStep_outside (P : SimParams) (sq : ℚ → ℚ) (pos : Vec) (st : Accum) (o : Agent)
    (h : outsideAllRadii P pos o) : accumStep P sq pos st o = st := by
  obtain ⟨h1, h2, h3⟩ := h
  unfold distSqTo at h1 h2 h3
  unfold accumStep
  dsimp only
  rw [if_neg h3, if_neg h2, if_neg (fun hc => h1 hc.1)]

/-- Folding the grid variant's step over candidates that are all outside the
radii changes nothing. -/
theorem foldl_accumStep_id (P : SimParams) (sq : ℚ → ℚ) (pos : Vec) :
    ∀ (cands : List Agent), (∀ o ∈ cands, outsideAllRadii P pos o) →
      ∀ st, cands.foldl (accumStep P sq pos) st = st
  | [], _, _ => rfl
  | a :: t, h, st => by
    rw [List.foldl_cons, accumStep_outside P sq pos st a (h a (List.mem_cons_self a t))]
    exact foldl_accumStep_id P sq pos t (fun o ho => h o (List.mem_cons_of_mem a ho)) st

/-- A candidate outside all three radii leaves every force accumulator of
the momentum variant untouched (only the processed counter may move). -/
theorem accumStepMomentum_outside (P : SimParams) (sq : ℚ → ℚ) (powF : ℚ → ℚ → ℚ)
    (pos : Vec) (st : AccumM) (o : Agent) (h : outsideAllRadii P pos o) :
    (accumStepMomentum P sq powF pos st o).sep = st.sep
    ∧ (accumStepMomentum P sq powF pos st o).sepCnt = st.sepCnt
    ∧ (accumStepMomentum P sq powF pos st o).align = st.align
    ∧ (accumStepMomentum P sq powF pos st o).alignCnt = st.alignCnt
    ∧ (accumStepMomentum P sq powF pos st o).coh = st.coh
    ∧ (accumStepMomentum P sq powF pos st o).cohCnt = st.cohCnt := by
  obtain ⟨h1, h2, h3⟩ := h
  unfold distSqTo at h1 h2 h3
  unfold accumStepMomentum
  by_cases hp : st.processed ≥ P.maxNeighbors
  · rw [if_pos hp]
    exact ⟨rfl, rfl, rfl, rfl, rfl, rfl⟩
  · rw [if_neg hp]
    dsimp only
    rw [if_neg h3, if_neg h2, if_neg (fun hc => h1 hc.1)]
    exact ⟨rfl, rfl, rfl, rfl, rfl, rfl⟩

/-- Folding the momentum variant's step over candidates outside the radii
keeps all force accumulators. -/
theorem foldl_accumStepM_fields (P : SimParams) (sq : ℚ → ℚ) (powF : ℚ → ℚ → ℚ) (pos : Vec) :
    ∀ (cands : List Agent), (∀ o ∈ cands, outsideAllRadii P pos o) →
      ∀ st : AccumM,
        (cands.foldl (accumStepMomentum P sq powF pos) st).sep = st.sep
        ∧ (cands.foldl (accumStepMomentum P sq powF pos) st).sepCnt = st.sepCnt
        ∧ (cands.foldl (accumStepMomentum P sq powF pos) st).align = st.align
        ∧ (cands.foldl (accumStepMomentum P sq powF pos) st).alignCnt = st.alignCnt
        ∧ (cands.foldl (accumStepMomentum P sq powF pos) st).coh = st.coh
        ∧ (cands.foldl (accumStepMomentum P sq powF pos) st).cohCnt = st.cohCnt
  | [], _, _ => ⟨rfl, rfl, rfl, rfl, rfl, rfl⟩
  | a :: t, h, st => by
    rw [List.foldl_cons]
    have hstep := accumStepMomentum_outside P sq powF pos st a (h a (List.mem_cons_self a t))
    have hrest := foldl_accumStepM_fields P sq powF pos t
      (fun o ho => h o (List.mem_cons_of_mem a ho)) (accumStepMomentum P sq powF pos st a)
    exact ⟨hrest.1.trans hstep.1, hrest.2.1.trans hstep.2.1,
      hrest.2.2.1.trans hstep.2.2.1, hrest.2.2.2.1.trans hstep.2.2.2.1,
      hrest.2.2.2.2.1.trans hstep.2.2.2.2.1, hrest.2.2.2.2.2.trans hstep.2.2.2.2.2⟩

/-- Deriving from the all-zero accumulator yields the zero acceleration
(and no NaN). -/
theorem deriveAccel_init (P : SimParams) (sq : ℚ → ℚ) (pos : Vec) :
    deriveAccel P sq pos accumInit = some ((0 : ℚ), (0 : ℚ)) := by
  simp [deriveAccel, sepTermGrid, alignTerm, cohTerm, accumInit]

/-- Deriving in the momentum variant from an accumulator with zero counts
yields the zero acceleration. -/
theorem deriveAccelMomentum_zeroCounts (P : SimParams) (sq : ℚ → ℚ) (pos : Vec) (a : AccumM)
    (hs : a.sepCnt = 0) (ha : a.alignCnt = 0) (hc : a.cohCnt = 0) :
    deriveAccelMomentum P sq pos a = some ((0 : ℚ), (0 : ℚ)) := by
  simp [deriveAccelMomentum, sepTermMomentum, alignTerm, cohTerm, hs, ha, hc]

/-- C9: an agent with no candidate neighbor inside the separation,
alignment, or cohesion radius accumulates exactly zero
separation/alignment/cohesion in both grid kernels, so its acceleration
that frame is exactly the edge-avoidance force (which the momentum variant
then blends with the previous acceleration). -/
theorem isolated_agent_zero_forces (P : SimParams) (sq : ℚ → ℚ) (powF : ℚ → ℚ → ℚ)
    (pos : Vec) (cands : List Agent)
    (h : ∀ o ∈ cands, outsideAllRadii P pos o) :
    accumulate P sq pos cands = accumInit
    ∧ accelerationGrid P sq pos cands = some (edgeForce P pos)
    ∧ (accumulateMomentum P sq powF pos cands).sep = (0, 0)
    ∧ (accumulateMomentum P sq powF pos cands).sepCnt = 0
    ∧ (accumulateMomentum P sq powF pos cands).align = (0, 0)
    ∧ (accumulateMomentum P sq powF pos cands).alignCnt = 0
    ∧ (accumulateMomentum P sq powF pos cands).coh = (0, 0)
    ∧ (accumulateMomentum P sq powF pos cands).cohCnt = 0
    ∧ accelerationMomentum P sq powF pos cands = some (edgeForce P pos) := by
  have hacc : accumulate P sq pos cands = accumInit := foldl_accumStep_id P sq pos cands h _
  have hm := foldl_accumStepM_fields P sq powF pos cands h accumMInit
  have hgrid : accelerationGrid P sq pos cands = some (edgeForce P pos) := by
    unfold accelerationGrid
    rw [hacc, deriveAccel_init]
    simp
  have hmom : accelerationMomentum P sq powF pos cands = some (edgeForce P pos) := by
    unfold accelerationMomentum accumulateMomentum
    rw [deriveAccelMomentum_zeroCounts P sq pos _ hm.2.1 hm.2.2.2.1 hm.2.2.2.2.2]
    simp
  exact ⟨hacc, hgrid, hm.1, hm.2.1, hm.2.2.1, hm.2.2.2.1, hm.2.2.2.2.1, hm.2.2.2.2.2, hmom⟩

/-- C9 witness: one candidate 100·√2 units away from the agent, far outside
the 5-unit radii of the sample parameters. -/
theorem isolated_agent_zero_forces_witness :
    accumulate sampleParams (fun _ => 0) ((100 : ℚ), (100 : ℚ))
        [⟨(200, 200), (0, 0)⟩] = accumInit
    ∧ accelerationGrid sampleParams (fun _ => 0) ((100 : ℚ), (100 : ℚ))
        [⟨(200, 200), (0, 0)⟩] = some (edgeForce sampleParams ((100 : ℚ), (100 : ℚ)))
    ∧ (accumulateMomentum sampleParams (fun _ => 0) (fun _ _ => 0) ((100 : ℚ), (100 : ℚ))
        [⟨(200, 200), (0, 0)⟩]).sep = (0, 0)
    ∧ (accumulateMomentum sampleParams (fun _ => 0) (fun _ _ => 0) ((100 : ℚ), (100 : ℚ))
        [⟨(200, 200), (0, 0)⟩]).sepCnt = 0
    ∧ (accumulateMomentum sampleParams (fun _ => 0) (fun _ _ => 0) ((100 : ℚ), (100 : ℚ))
        [⟨(200, 200), (0, 0)⟩]).align = (0, 0)
    ∧ (accumulateMomentum sampleParams (fun _ => 0) (fun _ _ => 0) ((100 : ℚ), (100 : ℚ))
        [⟨(200, 200), (0, 0)⟩]).alignCnt = 0
    ∧ (accumulateMomentum sampleParams (fun _ => 0) (fun _ _ => 0) ((100 : ℚ), (100 : ℚ))
        [⟨(200, 200), (0, 0)⟩]).coh = (0, 0)
    ∧ (accumulateMomentum sampleParams (fun _ => 0) (fun _ _ => 0) ((100 : ℚ), (100 : ℚ))
        [⟨(200, 200), (0, 0)⟩]).cohCnt = 0
    ∧ accelerationMomentum sampleParams (fun _ => 0) (fun _ _ => 0) ((100 : ℚ), (100 : ℚ))
        [⟨(200, 200), (0, 0)⟩] = some (edgeForce sampleParams ((100 : ℚ), (100 : ℚ))) :=
  isolated_agent_zero_forces sampleParams (fun _ => 0) (fun _ _ => 0) (100, 100)
    [⟨(200, 200), (0, 0)⟩]
    (by
      intro o ho
      rw [List.mem_singleton] at ho
      subst ho
      refine ⟨?_, ?_, ?_⟩ <;> norm_num [distSqTo, sampleParams])

/-- C1 (amended): in the grid kernels each normalization is guarded only by
a positive neighbor count: a term whose neighbor count is zero contributes
exactly zero acceleration and produces no NaN, and the derived acceleration
is NaN-free whenever every positive-count term hands a nonzero vector to
`normalize`; but a zero-length accumulated vector with a positive count is
passed to `normalize` unguarded and yields NaN (see the counterexample). -/
theorem count_guarded_normalization (P : SimParams) (sq : ℚ → ℚ) (pos : Vec) (a : Accum)
    (hsep : a.sepCnt ≠ 0 → lengthSq (a.sep.1 / (a.sepCnt : ℚ), a.sep.2 / (a.sepCnt : ℚ)) ≠ 0)
    (halign : a.alignCnt ≠ 0 →
      lengthSq (a.align.1 / (a.alignCnt : ℚ), a.align.2 / (a.alignCnt : ℚ)) ≠ 0)
    (hcoh : a.cohCnt ≠ 0 →
      lengthSq (a.coh.1 / (a.cohCnt : ℚ) - pos.1, a.coh.2 / (a.cohCnt : ℚ) - pos.2) ≠ 0) :
    (∃ w, deriveAccel P sq pos a = some w)
    ∧ (a.sepCnt = 0 → sepTermGrid P sq a.sep a.sepCnt = some (0, 0))
    ∧ (a.alignCnt = 0 → alignTerm P sq a.align a.alignCnt = some (0, 0))
    ∧ (a.cohCnt = 0 → cohTerm P sq pos a.coh a.cohCnt = some (0, 0)) := by
  have hsep2 : ∃ w, sepTermGrid P sq a.sep a.sepCnt = some w := by
    unfold sepTermGrid
    by_cases h0 : a.sepCnt = 0
    · rw [if_neg (by omega)]
      exact ⟨_, rfl⟩
    · rw [if_pos (Nat.pos_of_ne_zero h0)]
      unfold normalizeOpt
      rw [if_neg (hsep h0)]
      exact ⟨_, rfl⟩
  have halign2 : ∃ w, alignTerm P sq a.align a.alignCnt = some w := by
    unfold alignTerm
    by_cases h0 : a.alignCnt = 0
    · rw [if_neg (by omega)]
      exact ⟨_, rfl⟩
    · rw [if_pos (Nat.pos_of_ne_zero h0)]
      unfold normalizeOpt
      rw [if_neg (halign h0)]
      exact ⟨_, rfl⟩
  have hcoh2 : ∃ w, cohTerm P sq pos a.coh a.cohCnt = some w := by
    unfold cohTerm
    by_cases h0 : a.cohCnt = 0
    · rw [if_neg (by omega)]
      exact ⟨_, rfl⟩
    · rw [if_pos (Nat.pos_of_ne_zero h0)]
      unfold normalizeOpt
      rw [if_neg (hcoh h0)]
      exact ⟨_, rfl⟩
  obtain ⟨w1, e1⟩ := hsep2
  obtain ⟨w2, e2⟩ := halign2
  obtain ⟨w3, e3⟩ := hcoh2
  refine ⟨⟨(w1.1 + w2.1 + w3.1, w1.2 + w2.2 + w3.2), ?_⟩, ?_, ?_, ?_⟩
  · unfold deriveAccel
    rw [e1, e2, e3]
    rfl
  · intro h0
    unfold sepTermGrid
    rw [if_neg (by omega)]
  · intro h0
    unfold alignTerm
    rw [if_neg (by omega)]
  · intro h0
    unfold cohTerm
    rw [if_neg (by omega)]

/-- C1 witness: the all-zero accumulator derives the zero acceleration with
no NaN. -/
theorem count_guarded_normalization_witness :
    (∃ w, deriveAccel sampleParams (fun _ => 0) ((0 : ℚ), (0 : ℚ)) accumInit = some w)
    ∧ (accumInit.sepCnt = 0 →
        sepTermGrid sampleParams (fun _ => 0) accumInit.sep accumInit.sepCnt = some (0, 0))
    ∧ (accumInit.alignCnt = 0 →
        alignTerm sampleParams (fun _ => 0) accumInit.align accumInit.alignCnt = some (0, 0))
    ∧ (accumInit.cohCnt = 0 →
        cohTerm sampleParams (fun _ => 0) ((0 : ℚ), (0 : ℚ)) accumInit.coh accumInit.cohCnt
          = some (0, 0)) :=
  count_guarded_normalization sampleParams (fun _ => 0) (0, 0) accumInit
    (by simp [accumInit]) (by simp [accumInit]) (by simp [accumInit])

/-- C1 counterexample: one neighbor with zero velocity 10 units away, inside
the 20-unit alignment radius but outside the 5-unit separation radius. The
accumulated alignment vector is zero while the alignment count is 1, so the
kernel computes `normalize(vec2(0,0))` and the acceleration is NaN (`none`),
refuting that a zero accumulated vector is turned into a zero contribution
and that no NaN is ever produced. -/
theorem alignment_normalize_nan :
    accelerationGrid nanParams (fun _ => 0) ((0 : ℚ), (0 : ℚ))
      [⟨(10, 0), (0, 0)⟩] = none := by
  norm_num [accelerationGrid, accumulate, accumStep, accumInit, deriveAccel, sepTermGrid,
    alignTerm, cohTerm, normalizeOpt, lengthSq, nanParams, sampleParams, List.foldl]

/-- Slot addresses `cell * maxAgentsPerCell + slot` with in-range slots are
injective in (cell, slot). -/
theorem slot_index_inj {M c s c2 s2 : ℕ} (hs : s < M) (hs2 : s2 < M)
    (h : c * M + s = c2 * M + s2) : c = c2 ∧ s = s2 := by
  have hM : 0 < M := lt_of_le_of_lt (Nat.zero_le s) hs
  have hmod : s = s2 := by
    have h1 : (c * M + s) % M = s % M := by
      rw [Nat.mul_comm c M, Nat.mul_add_mod]
    have h2 : (c2 * M + s2) % M = s2 % M := by
      rw [Nat.mul_comm c2 M, Nat.mul_add_mod]
    rw [Nat.mod_eq_of_lt hs] at h1
    rw [Nat.mod_eq_of_lt hs2] at h2
    rw [← h1, ← h2, h]
  subst hmod
  refine ⟨?_, rfl⟩
  exact Nat.eq_of_mul_eq_mul_right hM (Nat.add_right_cancel h)

/-- An already-written slot below its cell's counter survives one insertion
step, and stays below the (monotone) counter. -/
theorem popStep_preserves (P : SimParams) (st : PopState) (a : ℕ × Vec) (c s i : ℕ)
    (hsM : s < P.maxAgentsPerCell) (hsc : s < st.counters c)
    (hdata : st.data (c * P.maxAgentsPerCell + s) = some i) :
    (popStep P st a).data (c * P.maxAgentsPerCell + s) = some i
    ∧ s < (popStep P st a).counters c := by
  unfold popStep
  dsimp only
  constructor
  · by_cases hslot : st.counters (homeCell P a.2) < P.maxAgentsPerCell
    · rw [if_pos hslot]
      by_cases hidx : c * P.maxAgentsPerCell + s
          = homeCell P a.2 * P.maxAgentsPerCell + st.counters (homeCell P a.2)
      · exfalso
        obtain ⟨hc, hs⟩ := slot_index_inj hsM hslot hidx
        subst hc
        omega
      · rw [if_neg hidx]
        exact hdata
    · rw [if_neg hslot]
      exact hdata
  · by_cases hc : c = homeCell P a.2
    · rw [if_pos hc]
      omega
    · rw [if_neg hc]
      exact hsc

/-- An already-written slot below its cell's counter survives the rest of
the population pass. -/
theorem populate_preserves (P : SimParams) :
    ∀ (agents : List (ℕ × Vec)) (st : PopState) (c s i : ℕ),
      s < P.maxAgentsPerCell → s < st.counters c →
      st.data (c * P.maxAgentsPerCell + s) = some i →
      (populateGrid P agents st).data (c * P.maxAgentsPerCell + s) = some i
      ∧ s < (populateGrid P agents st).counters c
  | [], _, _, _, _, _, h2, h3 => ⟨h3, h2⟩
  | a :: t, st, c, s, i, h1, h2, h3 => by
    have hstep := popStep_preserves P st a c s i h1 h2 h3
    exact populate_preserves P t (popStep P st a) c s i h1 hstep.2 hstep.1

/-- Counting agents of a home cell, cons case. -/
theorem homeCount_cons (P : SimParams) (a : ℕ × Vec) (t : List (ℕ × Vec)) (c : ℕ) :
    homeCount P (a :: t) c
      = (if homeCell P a.2 = c then 1 else 0) + homeCount P t c := by
  unfold homeCount
  rw [List.filter_cons]
  by_cases h : homeCell P a.2 = c
  · simp [h, Nat.add_comm]
  · simp [h]

/-- Every agent of the list whose home cell's total load (counting the
cell's pre-existing counter value) fits in `maxAgentsPerCell` ends up
written in one of that cell's slots. -/
theorem populate_complete_aux (P : SimParams) :
    ∀ (agents : List (ℕ × Vec)) (st : PopState) (i : ℕ) (p : Vec),
      (i, p) ∈ agents →
      st.counters (homeCell P p) + homeCount P agents (homeCell P p) ≤ P.maxAgentsPerCell →
      ∃ s, s < P.maxAgentsPerCell
        ∧ s < (populateGrid P agents st).counters (homeCell P p)
        ∧ (populateGrid P agents st).data (homeCell P p * P.maxAgentsPerCell + s) = some i
  | [], _, i, p, hmem, _ => absurd hmem (List.not_mem_nil (i, p))
  | a :: t, st, i, p, hmem, hcount => by
    rw [homeCount_cons] at hcount
    rcases List.mem_cons.mp hmem with heq | hmem2
    · obtain rfl : a = (i, p) := heq.symm
      have hhome : homeCell P (i, p).2 = homeCell P p := rfl
      rw [if_pos hhome] at hcount
      have hslot : st.counters (homeCell P p) < P.maxAgentsPerCell := by omega
      have hW : (popStep P st (i, p)).data
          (homeCell P p * P.maxAgentsPerCell + st.counters (homeCell P p)) = some i := by
        unfold popStep
        dsimp only
        rw [if_pos hslot, if_pos rfl]
      have hC : st.counters (homeCell P p) < (popStep P st (i, p)).counters (homeCell P p) := by
        unfold popStep
        dsimp only
        rw [if_pos rfl]
        omega
      have hrest := populate_preserves P t (popStep P st (i, p)) (homeCell P p)
        (st.counters (homeCell P p)) i hslot hC hW
      exact ⟨st.counters (homeCell P p), hslot, hrest.2, hrest.1⟩
    · have hc2 : (popStep P st a).counters (homeCell P p) + homeCount P t (homeCell P p)
          ≤ P.maxAgentsPerCell := by
        unfold popStep
        dsimp only
        by_cases hac : homeCell P a.2 = homeCell P p
        · rw [if_pos hac] at hcount
          rw [if_pos hac.symm]
          omega
        · rw [if_neg hac] at hcount
          rw [if_neg (fun hh => hac hh.symm)]
          omega
      exact populate_complete_aux P t (popStep P st a) i p hmem2 hc2

/-- C4: on the cleared grid, `grid_populate` computes each agent's home cell
from its position, draws a slot by fetch-and-increment, writes the agent
index exactly when the slot is below `maxAgentsPerCell`, and consequently
every agent whose home cell receives at most `maxAgentsPerCell` agents
appears in that cell's slot list after population. -/
theorem grid_populate_complete (P : SimParams) (agents : List (ℕ × Vec)) (i : ℕ) (p : Vec)
    (hmem : (i, p) ∈ agents)
    (hcount : homeCount P agents (homeCell P p) ≤ P.maxAgentsPerCell) :
    ∃ s, s < P.maxAgentsPerCell
      ∧ s < (populateGrid P agents emptyPop).counters (homeCell P p)
      ∧ (populateGrid P agents emptyPop).data (homeCell P p * P.maxAgentsPerCell + s)
          = some i :=
  populate_complete_aux P agents emptyPop i p hmem (by simpa [emptyPop] using hcount)

/-- C4 witness: a single agent at (7, 3) lands in its home cell's slot
list. -/
theorem grid_populate_complete_witness :
    ∃ s, s < sampleParams.maxAgentsPerCell
      ∧ s < (populateGrid sampleParams [(0, ((7 : ℚ), (3 : ℚ)))] emptyPop).counters
          (homeCell sampleParams ((7 : ℚ), (3 : ℚ)))
      ∧ (populateGrid sampleParams [(0, ((7 : ℚ), (3 : ℚ)))] emptyPop).data
          (homeCell sampleParams ((7 : ℚ), (3 : ℚ)) * sampleParams.maxAgentsPerCell + s)
          = some 0 :=
  grid_populate_complete sampleParams [(0, ((7 : ℚ), (3 : ℚ)))] 0 (7, 3)
    (List.mem_singleton.mpr rfl) (by simp [homeCount, sampleParams])

/-- A head entry that fails its documented range (or has an unknown id)
makes the update loop return an Error at once. -/
theorem applyUpdates_cons_invalid (pid : String) (v : ℚ) (rest : List (String × ℚ))
    (u : Params.SimulationParams) (h : ¬ Params.validEntry (pid, v)) :
    ∃ msg, Params.applyUpdates ((pid, v) :: rest) u = .error msg := by
  by_cases h1 : pid = "separationRadius"
  · subst h1
    rw [show Params.validEntry ("separationRadius", v) ↔ (1 ≤ v ∧ v ≤ 200) from by
      simp [Params.validEntry]] at h
    push_neg at h
    have hcond : v < 1 ∨ v > 200 := by
      rcases lt_or_le v 1 with h2 | h2
      · exact Or.inl h2
      · exact Or.inr (h h2)
    exact ⟨_, by unfold Params.applyUpdates; rw [if_pos rfl, if_pos hcond]⟩
  · by_cases h2 : pid = "alignmentRadius"
    · subst h2
      rw [show Params.validEntry ("alignmentRadius", v) ↔ (1 ≤ v ∧ v ≤ 200) from by
        simp [Params.validEntry]] at h
      push_neg at h
      have hcond : v < 1 ∨ v > 200 := by
        rcases lt_or_le v 1 with h3 | h3
        · exact Or.inl h3
        · exact Or.inr (h h3)
      exact ⟨_, by unfold Params.applyUpdates; rw [if_neg h1, if_pos rfl, if_pos hcond]⟩
    · by_cases h3 : pid = "cohesionRadius"
      · subst h3
        rw [show Params.validEntry ("cohesionRadius", v) ↔ (1 ≤ v ∧ v ≤ 200) from by
          simp [Params.validEntry]] at h
        push_neg at h
        have hcond : v < 1 ∨ v > 200 := by
          rcases lt_or_le v 1 with h4 | h4
          · exact Or.inl h4
          · exact Or.inr (h h4)
        exact ⟨_, by
          unfold Params.applyUpdates
          rw [if_neg h1, if_neg h2, if_pos rfl, if_pos hcond]⟩
      · by_cases h4 : pid = "separationForce"
        · subst h4
          rw [show Params.validEntry ("separationForce", v) ↔ (0.1 ≤ v ∧ v ≤ 10) from by
            simp [Params.validEntry]] at h
          push_neg at h
          have hcond : v < 0.1 ∨ v > 10 := by
            rcases lt_or_le v 0.1 with h5 | h5
            · exact Or.inl h5
            · exact Or.inr (h h5)
          exact ⟨_, by
            unfold Params.applyUpdates
            rw [if_neg h1, if_neg h2, if_neg h3, if_pos rfl, if_pos hcond]⟩
        · by_cases h5 : pid = "alignmentForce"
          · subst h5
            rw [show Params.validEntry ("alignmentForce", v) ↔ (0.1 ≤ v ∧ v ≤ 10) from by
              simp [Params.validEntry]] at h
            push_neg at h
            have hcond : v < 0.1 ∨ v > 10 := by
              rcases lt_or_le v 0.1 with h6 | h6
              · exact Or.inl h6
              · exact Or.inr (h h6)
            exact ⟨_, by
              unfold Params.applyUpdates
              rw [if_neg h1, if_neg h2, if_neg h3, if_neg h4, if_pos rfl, if_pos hcond]⟩
          · by_cases h6 : pid = "cohesionForce"
            · subst h6
              rw [show Params.validEntry ("cohesionForce", v) ↔ (0.1 ≤ v ∧ v ≤ 10) from by
                simp [Params.validEntry]] at h
              push_neg at h
              have hcond : v < 0.1 ∨ v > 10 := by
                rcases lt_or_le v 0.1 with h7 | h7
                · exact Or.inl h7
                · exact Or.inr (h h7)
              exact ⟨_, by
                unfold Params.applyUpdates
                rw [if_neg h1, if_neg h2, if_neg h3, if_neg h4, if_neg h5, if_pos rfl,
                  if_pos hcond]⟩
            · by_cases h7 : pid = "maxSpeed"
              · subst h7
                rw [show Params.validEntry ("maxSpeed", v) ↔ (0.1 ≤ v ∧ v ≤ 20) from by
                  simp [Params.validEntry]] at h
                push_neg at h
                have hcond : v < 0.1 ∨ v > 20 := by
                  rcases lt_or_le v 0.1 with h8 | h8
                  · exact Or.inl h8
                  · exact Or.inr (h h8)
                exact ⟨_, by
                  unfold Params.applyUpdates
                  rw [if_neg h1, if_neg h2, if_neg h3, if_neg h4, if_neg h5, if_neg h6,
                    if_pos rfl, if_pos hcond]⟩
              · exact ⟨_, by
                  unfold Params.applyUpdates
                  rw [if_neg h1, if_neg h2, if_neg h3, if_neg h4, if_neg h5, if_neg h6,
                    if_neg h7]⟩

/-- A head entry inside its documented range steps the update loop to the
rest of the entries with the field folded in. -/
theorem applyUpdates_cons_valid (pid : String) (v : ℚ) (rest : List (String × ℚ))
    (u : Params.SimulationParams) (h : Params.validEntry (pid, v)) :
    ∃ u2, Params.applyUpdates ((pid, v) :: rest) u = Params.applyUpdates rest u2 := by
  by_cases h1 : pid = "separationRadius"
  · subst h1
    rw [show Params.validEntry ("separationRadius", v) ↔ (1 ≤ v ∧ v ≤ 200) from by
      simp [Params.validEntry]] at h
    refine ⟨{ u with separationRadius := v }, ?_⟩
    conv_lhs => unfold Params.applyUpdates
    rw [if_pos rfl, if_neg (by push_neg; exact ⟨h.1, h.2⟩)]
  · by_cases h2 : pid = "alignmentRadius"
    · subst h2
      rw [show Params.validEntry ("alignmentRadius", v) ↔ (1 ≤ v ∧ v ≤ 200) from by
        simp [Params.validEntry]] at h
      refine ⟨{ u with alignmentRadius := v }, ?_⟩
      conv_lhs => unfold Params.applyUpdates
      rw [if_neg h1, if_pos rfl, if_neg (by push_neg; exact ⟨h.1, h.2⟩)]
    · by_cases h3 : pid = "cohesionRadius"
      · subst h3
        rw [show Params.validEntry ("cohesionRadius", v) ↔ (1 ≤ v ∧ v ≤ 200) from by
          simp [Params.validEntry]] at h
        refine ⟨{ u with cohesionRadius := v }, ?_⟩
        conv_lhs => unfold Params.applyUpdates
        rw [if_neg h1, if_neg h2, if_pos rfl, if_neg (by push_neg; exact ⟨h.1, h.2⟩)]
      · by_cases h4 : pid = "separationForce"
        · subst h4
          rw [show Params.validEntry ("separationForce", v) ↔ (0.1 ≤ v ∧ v ≤ 10) from by
            simp [Params.validEntry]] at h
          refine ⟨{ u with separationForce := v }, ?_⟩
          conv_lhs => unfold Params.applyUpdates
          rw [if_neg h1, if_neg h2, if_neg h3, if_pos rfl,
            if_neg (by push_neg; exact ⟨h.1, h.2⟩)]
        · by_cases h5 : pid = "alignmentForce"
          · subst h5
            rw [show Params.validEntry ("alignmentForce", v) ↔ (0.1 ≤ v ∧ v ≤ 10) from by
              simp [Params.validEntry]] at h
            refine ⟨{ u with alignmentForce := v }, ?_⟩
            conv_lhs => unfold Params.applyUpdates
            rw [if_neg h1, if_neg h2, if_neg h3, if_neg h4, if_pos rfl,
              if_neg (by push_neg; exact ⟨h.1, h.2⟩)]
          · by_cases h6 : pid = "cohesionForce"
            · subst h6
              rw [show Params.validEntry ("cohesionForce", v) ↔ (0.1 ≤ v ∧ v ≤ 10) from by
                simp [Params.validEntry]] at h
              refine ⟨{ u with cohesionForce := v }, ?_⟩
              conv_lhs => unfold Params.applyUpdates
              rw [if_neg h1, if_neg h2, if_neg h3, if_neg h4, if_neg h5, if_pos rfl,
                if_neg (by push_neg; exact ⟨h.1, h.2⟩)]
            · by_cases h7 : pid = "maxSpeed"
              · subst h7
                rw [show Params.validEntry ("maxSpeed", v) ↔ (0.1 ≤ v ∧ v ≤ 20) from by
                  simp [Params.validEntry]] at h
                refine ⟨{ u with maxSpeed := v }, ?_⟩
                conv_lhs => unfold Params.applyUpdates
                rw [if_neg h1, if_neg h2, if_neg h3, if_neg h4, if_neg h5, if_neg h6,
                  if_pos rfl, if_neg (by push_neg; exact ⟨h.1, h.2⟩)]
              · exfalso
                rw [show Params.validEntry (pid, v) ↔ False from by
                  simp [Params.validEntry, h1, h2, h3, h4, h5, h6, h7]] at h
                exact h

/-- A map holding an out-of-range or unknown entry makes the whole update
loop return an Error. -/
theorem applyUpdates_error_of_invalid :
    ∀ (ups : List (String × ℚ)) (u : Params.SimulationParams),
      (∃ e ∈ ups, ¬ Params.validEntry e) →
      ∃ msg, Params.applyUpdates ups u = .error msg
  | [], _, h => by
    obtain ⟨e, he, _⟩ := h
    exact absurd he (List.not_mem_nil e)
  | (pid, v) :: rest, u, h => by
    by_cases hh : Params.validEntry (pid, v)
    · have hrest : ∃ e ∈ rest, ¬ Params.validEntry e := by
        obtain ⟨e, he, hne⟩ := h
        rcases List.mem_cons.mp he with rfl | hmem
        · exact absurd hh hne
        · exact ⟨e, hmem, hne⟩
      obtain ⟨u2, hu2⟩ := applyUpdates_cons_valid pid v rest u hh
      obtain ⟨msg, hmsg⟩ := applyUpdates_error_of_invalid rest u2 hrest
      exact ⟨msg, by rw [hu2, hmsg]⟩
    · exact applyUpdates_cons_invalid pid v rest u hh

/-- A map of only in-range known entries makes the whole update loop
succeed. -/
theorem applyUpdates_ok_of_valid :
    ∀ (ups : List (String × ℚ)) (u : Params.SimulationParams),
      (∀ e ∈ ups, Params.validEntry e) →
      ∃ u2, Params.applyUpdates ups u = .ok u2
  | [], u, _ => ⟨u, rfl⟩
  | (pid, v) :: rest, u, h => by
    obtain ⟨u2, hu2⟩ := applyUpdates_cons_valid pid v rest u
      (h (pid, v) (List.mem_cons_self _ _))
    obtain ⟨u3, hu3⟩ := applyUpdates_ok_of_valid rest u2
      (fun e he => h e (List.mem_cons_of_mem _ he))
    exact ⟨u3, hu2.trans hu3⟩

/-- C5: `updateSimulationParams` returns an Error for every update map
holding a value outside its documented range or an unknown parameter id
(leaving the caller's record untouched, the function being pure), and for
every valid map returns a record whose `neighborRadius` is the maximum of
the three interaction radii, with the grid geometry recomputed whenever
that neighbor radius differs from the current one. -/
theorem updateSimulationParams_spec (cur : Params.SimulationParams)
    (ups : List (String × ℚ)) :
    ((∃ e ∈ ups, ¬ Params.validEntry e) →
      ∃ msg, Params.updateSimulationParams cur ups = .error msg)
    ∧ ((∀ e ∈ ups, Params.validEntry e) →
      ∃ P2, Params.updateSimulationParams cur ups = .ok P2
        ∧ P2.neighborRadius
            = max (max P2.separationRadius P2.alignmentRadius) P2.cohesionRadius
        ∧ (P2.neighborRadius ≠ cur.neighborRadius →
            P2.gridCellSize
                = (Params.calculateGridConfig P2.worldSize P2.neighborRadius).cellSize
            ∧ P2.gridWidth
                = (Params.calculateGridConfig P2.worldSize P2.neighborRadius).gridWidth
            ∧ P2.gridHeight
                = (Params.calculateGridConfig P2.worldSize P2.neighborRadius).gridHeight
            ∧ P2.maxAgentsPerCell
                = (Params.calculateGridConfig P2.worldSize
                    P2.neighborRadius).maxAgentsPerCell)) := by
  constructor
  · intro h
    obtain ⟨msg, hmsg⟩ := applyUpdates_error_of_invalid ups cur h
    exact ⟨msg, by unfold Params.updateSimulationParams; rw [hmsg]⟩
  · intro h
    obtain ⟨u2, hu2⟩ := applyUpdates_ok_of_valid ups cur h
    unfold Params.updateSimulationParams
    rw [hu2]
    dsimp only
    split_ifs with hne
    · exact ⟨_, rfl, rfl, fun _ => ⟨rfl, rfl, rfl, rfl⟩⟩
    · exact ⟨_, rfl, rfl, fun hx => absurd hx hne⟩

/-- C10: under exact real arithmetic the soft exponential limiter is a hard
bound: for every nonnegative speed the post-limiting speed is at most
maxSpeed, and in particular `s * exp(1 - s/maxSpeed) ≤ maxSpeed` for every
`s ≥ maxSpeed > 0`. -/
theorem soft_limit_hard_bound (m s : ℝ) (hm : 0 < m) (hs : 0 ≤ s) :
    softLimitSpeed m s ≤ m ∧ (m ≤ s → s * Real.exp (1 - s / m) ≤ m) := by
  have key : ∀ t : ℝ, m ≤ t → t * Real.exp (1 - t / m) ≤ m := by
    intro t ht
    have h1 : t / m ≤ Real.exp (t / m - 1) := by
      have := Real.add_one_le_exp (t / m - 1)
      linarith
    have hexp : Real.exp (t / m - 1) * Real.exp (1 - t / m) = 1 := by
      rw [← Real.exp_add, show t / m - 1 + (1 - t / m) = 0 from by ring, Real.exp_zero]
    have hpos : (0 : ℝ) < Real.exp (1 - t / m) := Real.exp_pos _
    have ht2 : m * (t / m * Real.exp (1 - t / m)) = t * Real.exp (1 - t / m) := by
      field_simp
    calc t * Real.exp (1 - t / m) = m * (t / m * Real.exp (1 - t / m)) := ht2.symm
      _ ≤ m * (Real.exp (t / m - 1) * Real.exp (1 - t / m)) := by
          apply mul_le_mul_of_nonneg_left _ hm.le
          exact mul_le_mul_of_nonneg_right h1 hpos.le
      _ = m * 1 := by rw [hexp]
      _ = m := mul_one m
  constructor
  · unfold softLimitSpeed softLimitFactor
    split_ifs with hcond
    · have hms : m < s := by
        have h2 : (1 : ℝ) < s / m := hcond.2
        calc m = 1 * m := (one_mul m).symm
          _ < s / m * m := by
              exact mul_lt_mul_of_pos_right h2 hm
          _ = s := by field_simp
      have hkey := key s hms.le
      calc s * Real.exp (-(s / m) + 1)
            = s * Real.exp (1 - s / m) := by rw [show -(s / m) + 1 = 1 - s / m from by ring]
        _ ≤ m := hkey
    · rcases not_and_or.mp hcond with h0 | h1
      · push_neg at h0
        linarith
      · push_neg at h1
        have := (div_le_one hm).mp h1
        linarith
  · exact fun hms => key s hms

/-- C10 witness: speed 2 against maxSpeed 1. -/
theorem soft_limit_hard_bound_witness :
    softLimitSpeed 1 2 ≤ 1 ∧ ((1 : ℝ) ≤ 2 → (2 : ℝ) * Real.exp (1 - 2 / 1) ≤ 1) :=
  soft_limit_hard_bound 1 2 (by norm_num) (by norm_num)

/-- C6 witness: a position past the right boundary clamps to the last
column, a negative coordinate clamps to row zero. -/
theorem worldToGrid_matches_spec_witness :
    ((worldToGrid 50 16 12 ((825 : ℚ), (-3 : ℚ))).1 : ℤ)
        = (specWorldToCell 50 16 12 ((825 : ℚ), (-3 : ℚ))).1
    ∧ ((worldToGrid 50 16 12 ((825 : ℚ), (-3 : ℚ))).2 : ℤ)
        = (specWorldToCell 50 16 12 ((825 : ℚ), (-3 : ℚ))).2 :=
  worldToGrid_matches_spec 50 16 12 (825, -3) (by norm_num) (by norm_num) (by norm_num)
    (by norm_num)

end Flock
